import Mathlib

/-!
Shallow embedding of `src/audio_capture.rs` from the AudioTransVox repository.

Bytes are modelled as `Nat` values (all produced values are < 256), files as
`List Nat` of bytes.  Machine integer arithmetic is made explicit with `% 2^w`
where the Rust code operates on fixed-width integers.
-/

namespace AudioTransVox

/-- Little-endian bytes of a `u16` value (`u16::to_le_bytes`). -/
def u16le (n : Nat) : List Nat :=
  [n % 256, n / 256 % 256]

/-- Little-endian bytes of a `u32` value (`u32::to_le_bytes`). -/
def u32le (n : Nat) : List Nat :=
  [n % 256, n / 256 % 256, n / 65536 % 256, n / 16777216 % 256]

/-- Little-endian bytes of a `u64` value (`u64::to_le_bytes`). -/
def u64le (n : Nat) : List Nat :=
  [n % 256, n / 256 % 256, n / 65536 % 256, n / 16777216 % 256,
   n / 4294967296 % 256, n / 1099511627776 % 256,
   n / 281474976710656 % 256, n / 72057594037927936 % 256]

/-- Decode the first four bytes of a list as a little-endian `u32` value. -/
def u32leDecode (l : List Nat) : Nat :=
  l.getD 0 0 + 256 * l.getD 1 0 + 65536 * l.getD 2 0 + 16777216 * l.getD 3 0

/-- Overwrite the bytes of `l` starting at offset `off` with `bs`
(`seek(Start off)` followed by `write_all(bs)` on a file of bytes `l`;
all uses in the source stay within the existing file length). -/
def writeAt (l : List Nat) (off : Nat) (bs : List Nat) : List Nat :=
  l.take off ++ bs ++ l.drop (off + bs.length)

/-- Read `n` bytes of `l` starting at offset `off`. -/
def readBytes (l : List Nat) (off n : Nat) : List Nat :=
  (l.drop off).take n

/-- The ten sample formats named in the source's `match sample_format` arms
(`cpal::SampleFormat`; the enum is `non_exhaustive`, and the source's
wildcard arm covers constructors outside these ten). -/
inductive SampleFormat where
  | I8 | I16 | I32 | I64
  | U8 | U16 | U32 | U64
  | F32 | F64
  deriving DecidableEq, Repr

/-- `cpal::StreamConfig`: `channels` is a `u16`, `sample_rate` a `u32`. -/
structure StreamConfig where
  channels : Nat
  sampleRate : Nat
  deriving DecidableEq, Repr

/-- `bits_per_sample` as computed in `write_wav_header`. -/
def bitsPerSample : SampleFormat → Nat
  | .I8 | .U8 => 8
  | .I16 | .U16 => 16
  | .I32 | .U32 | .F32 => 32
  | .I64 | .U64 | .F64 => 64

/-- `audio_format` as computed in `write_wav_header`: 3 (IEEE float) for the
float formats, 1 (PCM) otherwise. -/
def audioFormat : SampleFormat → Nat
  | .F32 | .F64 => 3
  | _ => 1

/-- The 44 header bytes produced by `write_wav_header` (the function seeks to
offset 0 of the freshly created file and writes exactly these bytes).
`byte_rate` is `u32` arithmetic and `block_align` `u16` arithmetic in the
source, hence the explicit `% 2^32` / `% 2^16`; each `as u8` push is `% 256`
and each `>> 8` is `/ 256`. -/
def write_wav_header (config : StreamConfig) (fmt : SampleFormat) : List Nat :=
  let channels := config.channels % 65536
  let sample_rate := config.sampleRate % 4294967296
  let bits := bitsPerSample fmt
  let byte_rate := sample_rate * channels * (bits / 8) % 4294967296
  let block_align := channels * (bits / 8) % 65536
  [82, 73, 70, 70,            -- "RIFF"
   0, 0, 0, 0,                -- ChunkSize placeholder
   87, 65, 86, 69,            -- "WAVE"
   102, 109, 116, 32,         -- "fmt "
   16, 0, 0, 0]               -- Subchunk1Size
  ++ u16le (audioFormat fmt)
  ++ [channels % 256, channels / 256 % 256]
  ++ [sample_rate % 256, sample_rate / 256 % 256,
      sample_rate / 65536 % 256, sample_rate / 16777216 % 256]
  ++ [byte_rate % 256, byte_rate / 256 % 256,
      byte_rate / 65536 % 256, byte_rate / 16777216 % 256]
  ++ [block_align % 256, block_align / 256 % 256]
  ++ [bits % 256, bits / 256 % 256]
  ++ [100, 97, 116, 97,       -- "data"
      0, 0, 0, 0]             -- Subchunk2Size placeholder

/-- `update_wav_header`: seeks to the end to obtain `file_size : u64`, then
writes `(file_size - 8).to_le_bytes()` — eight bytes, the value being `u64` —
at offset 4, and `(data_chunk_size as u32).to_le_bytes()` — four bytes —
at offset 40, where `data_chunk_size = file_size - 44`. -/
def update_wav_header (file : List Nat) : List Nat :=
  let file_size := file.length
  let data_chunk_size := file_size - 44
  let f1 := writeAt file 4 (u64le ((file_size - 8) % 18446744073709551616))
  writeAt f1 40 (u32le (data_chunk_size % 4294967296))

/-- `data.chunks(channels)` from the capture callback.  Faithful to
`slice::chunks` for `n ≥ 1` (Rust panics on chunk size 0; the callback is
only reached with `channels ≥ 1`). -/
def chunksOf (n : Nat) : List α → List (List α)
  | [] => []
  | a :: t => (a :: t.take (n - 1)) :: chunksOf n (t.drop (n - 1))
termination_by l => l.length
decreasing_by
  simp only [List.length_cons]
  exact Nat.lt_succ_of_le (List.length_drop _ t ▸ Nat.sub_le _ _)

/-- `num_traits::ToPrimitive::to_u16` on an `i16` value: `Some(v as u16)`
exactly when `0 ≤ v` (every non-negative `i16` fits in a `u16`),
`None` for negative values. -/
def to_u16_of_i16 (v : Int) : Option Nat :=
  if 0 ≤ v then some v.toNat else none

/-- The per-sample body of the capture callback instantiated at `T = i16`
(`size_of::<i16>() == 2`): `sample.to_u16().unwrap().to_le_bytes()`.
`none` models the panic of `unwrap` on `None`. -/
def writeSampleI16 (v : Int) : Option (List Nat) :=
  (to_u16_of_i16 v).map u16le

/-- The inner `for &sample in frame` loop of the callback at `T = i16`:
the bytes written for one frame, or `none` if some sample panics. -/
def writeFrameI16 : List Int → Option (List Nat)
  | [] => some []
  | v :: rest => do
      let b ← writeSampleI16 v
      let bs ← writeFrameI16 rest
      pure (b ++ bs)

/-- The whole capture-callback body at `T = i16`: the bytes appended to the
file for one delivered buffer `data`, iterating `data.chunks(channels)`;
`none` models a panic inside the callback. -/
def captureBytesI16 (channels : Nat) (data : List Int) : Option (List Nat) :=
  go (chunksOf channels data)
where
  go : List (List Int) → Option (List Nat)
    | [] => some []
    | f :: fs => do
        let b ← writeFrameI16 f
        let bs ← go fs
        pure (b ++ bs)

/-- `num_traits::ToPrimitive::to_u64` on an `f64` value, over exact rational
values of finite doubles: `Some(*self as u64)` when `-1.0 < v ≤ u64::MAX as
f64` (that constant rounds to `2^64`), `None` otherwise.  The `as u64` cast
truncates toward zero and saturates at `u64::MAX`. -/
def to_u64_of_f64 (v : ℚ) : Option Nat :=
  if -1 < v ∧ v ≤ 18446744073709551616 then
    some (min (if 0 ≤ v then (⌊v⌋).toNat else 0) 18446744073709551615)
  else none

/-- The per-sample body of the capture callback instantiated at `T = f64`
(`size_of::<f64>() == 8`): `if let Some(val) = sample.to_u64()` writes
`val.to_le_bytes()`, otherwise `sample.to_f64().unwrap().to_le_bytes()`.
The IEEE-754 encoding of the float branch is kept abstract as `floatEnc`
(it is unreachable in every theorem below). -/
def writeSampleF64 (floatEnc : ℚ → List Nat) (v : ℚ) : List Nat :=
  match to_u64_of_f64 v with
  | some val => u64le val
  | none => floatEnc v

/-- The arm taken by the `match sample_format` in `AudioCapture::start`. -/
inductive StartAction where
  /-- `self.capture::<T>(...)` with `size_of::<T>()` the given byte width. -/
  | capture (width : Nat)
  /-- the `_ => panic!("Unsupported sample format")` arm. -/
  | unsupportedPanic
  deriving DecidableEq, Repr

/-- The `match sample_format` dispatch in `AudioCapture::start`: each of the
ten named formats builds a capture stream for the corresponding sample type;
the wildcard panic arm is reachable only for `cpal` constructors outside
these ten (the enum is `non_exhaustive`). -/
def startDispatch : SampleFormat → StartAction
  | .I8 => .capture 1
  | .I16 => .capture 2
  | .I32 => .capture 4
  | .I64 => .capture 8
  | .U8 => .capture 1
  | .U16 => .capture 2
  | .U32 => .capture 4
  | .U64 => .capture 8
  | .F32 => .capture 4
  | .F64 => .capture 8

/-- The `AudioCapture` struct: `stream: Option<Stream>` (modelled as an
opaque-handle presence flag), `file_name: String`, and
`file: Option<Arc<Mutex<File>>>` (modelled as the file's bytes). -/
structure AudioCapture where
  stream : Option Unit
  file_name : String
  file : Option (List Nat)
  deriving DecidableEq, Repr

/-- `AudioCapture::new`. -/
def AudioCapture.new (file_name : String) : AudioCapture :=
  ⟨none, file_name, none⟩

/-- `AudioCapture::stop`: pauses the stream if one is present (no effect on
the file bytes) and runs `update_wav_header` on the file if one is present;
with both fields `None`, both `if let` guards are skipped. -/
def AudioCapture.stop (s : AudioCapture) : AudioCapture :=
  { s with file := s.file.map update_wav_header }

/-- The file of the spec's concrete round-trip scenario: the header written
at `start` for a mono 16 kHz 16-bit stream, followed by the four appended
bytes `00 01 00 02`. -/
def demoFile : List Nat :=
  write_wav_header ⟨1, 16000⟩ .I16 ++ [0, 1, 0, 2]

/-! ### Helper lemmas -/

theorem length_writeAt (l : List Nat) (off : Nat) (bs : List Nat)
    (h : off + bs.length ≤ l.length) :
    (writeAt l off bs).length = l.length := by
  simp only [writeAt, List.length_append, List.length_take, List.length_drop]
  omega

theorem readBytes_writeAt_self (l : List Nat) (off : Nat) (bs : List Nat)
    (n : Nat) (hoff : off ≤ l.length) (hn : n ≤ bs.length) :
    readBytes (writeAt l off bs) off n = bs.take n := by
  unfold readBytes writeAt
  rw [List.append_assoc]
  generalize hp : l.take off = p
  have hlen : p.length = off := by
    rw [← hp, List.length_take]; omega
  rw [← hlen, List.drop_left, List.take_append_of_le_length hn]

theorem readBytes_writeAt_left (l : List Nat) (off : Nat) (bs : List Nat)
    (off2 n : Nat) (h : off2 + n ≤ off) (hoff : off ≤ l.length) :
    readBytes (writeAt l off bs) off2 n = readBytes l off2 n := by
  have hlen : (l.take off).length = off := by
    rw [List.length_take]; omega
  unfold readBytes writeAt
  rw [List.append_assoc, List.drop_append_eq_append_drop,
      List.take_append_of_le_length, List.drop_take, List.take_take]
  · congr 1
    omega
  · rw [List.length_drop, hlen]
    omega

theorem write_wav_header_length (cfg : StreamConfig) (fmt : SampleFormat) :
    (write_wav_header cfg fmt).length = 44 :=
  rfl

theorem u32leDecode_u32le (m : Nat) : u32leDecode (u32le m) = m % 4294967296 := by
  simp only [u32le, u32leDecode, List.getD_cons_zero, List.getD_cons_succ]
  omega

theorem writeSampleI16_length (v : Int) (b : List Nat)
    (h : writeSampleI16 v = some b) : b.length = 2 := by
  unfold writeSampleI16 at h
  cases hv : to_u16_of_i16 v with
  | none => rw [hv] at h; simp at h
  | some m =>
      rw [hv] at h
      simp only [Option.map_some', Option.some.injEq] at h
      rw [← h]
      rfl

theorem writeFrameI16_length : ∀ (f : List Int) (out : List Nat),
    writeFrameI16 f = some out → out.length = 2 * f.length
  | [], out => by
      intro h
      simp only [writeFrameI16, Option.some.injEq] at h
      simp [← h]
  | v :: rest, out => by
      intro h
      cases hv : writeSampleI16 v with
      | none => simp [writeFrameI16, hv] at h
      | some b =>
        cases hr : writeFrameI16 rest with
        | none => simp [writeFrameI16, hv, hr] at h
        | some bs =>
          simp only [writeFrameI16, hv, hr, Option.some_bind, Option.pure_def,
            Option.bind_eq_bind, Option.some.injEq] at h
          subst h
          rw [List.length_append, writeSampleI16_length v b hv,
            writeFrameI16_length rest bs hr, List.length_cons]
          omega

theorem captureGo_length : ∀ (fs : List (List Int)) (out : List Nat),
    captureBytesI16.go fs = some out → out.length = 2 * (fs.map List.length).sum
  | [], out => by
      intro h
      simp only [captureBytesI16.go, Option.some.injEq] at h
      simp [← h]
  | f :: fs, out => by
      intro h
      cases hf : writeFrameI16 f with
      | none => simp [captureBytesI16.go, hf] at h
      | some b =>
        cases hr : captureBytesI16.go fs with
        | none => simp [captureBytesI16.go, hf, hr] at h
        | some bs =>
          simp only [captureBytesI16.go, hf, hr, Option.some_bind, Option.pure_def,
            Option.bind_eq_bind, Option.some.injEq] at h
          subst h
          rw [List.length_append, writeFrameI16_length f b hf,
            captureGo_length fs bs hr, List.map_cons, List.sum_cons]
          omega

theorem chunksOf_length_sum (n : Nat) : ∀ (l : List α),
    ((chunksOf n l).map List.length).sum = l.length
  | [] => by simp [chunksOf]
  | a :: t => by
      rw [chunksOf]
      simp only [List.map_cons, List.sum_cons]
      rw [chunksOf_length_sum n (t.drop (n - 1))]
      simp only [List.length_cons, List.length_take, List.length_drop]
      omega
termination_by l => l.length
decreasing_by
  simp only [List.length_cons]
  exact Nat.lt_succ_of_le (List.length_drop _ t ▸ Nat.sub_le _ _)

/-! ### Claim theorems -/

/-- C1, counterexample: for a 2-channel 16-bit integer stream, the buffer
`[1, 2]` holds exactly one frame, yet the callback appends 4 bytes (both
samples, 2 bytes each), not 2 bytes per frame as claimed. -/
theorem c1_counterexample :
    captureBytesI16 2 [1, 2] = some [1, 0, 2, 0] ∧
    (chunksOf 2 ([1, 2] : List Int)).length = 1 ∧
    ([1, 0, 2, 0] : List Nat).length ≠ 2 * 1 := by
  refine ⟨?_, ?_, by decide⟩
  · simp [captureBytesI16, captureBytesI16.go, chunksOf, writeFrameI16,
      writeSampleI16, to_u16_of_i16, u16le]
  · simp [chunksOf]

/-- C1, amended: no frame is reduced to a mono 16-bit sample; every sample
of every frame is written in its native byte width.  For a 16-bit integer
stream with `c ≥ 1` channels, whenever the callback completes it appends
exactly 2 bytes per sample, i.e. `2 * c` bytes per frame. -/
theorem c1_bytes_per_sample (c : Nat) (data : List Int) (out : List Nat)
    (hc : 1 ≤ c) (h : captureBytesI16 c data = some out) :
    out.length = 2 * data.length := by
  unfold captureBytesI16 at h
  rw [captureGo_length (chunksOf c data) out h, chunksOf_length_sum]

/-- Witness for `c1_bytes_per_sample` at `c = 2`, `data = [1, 2]`. -/
theorem c1_bytes_per_sample_witness :
    (1 ≤ 2 ∧ captureBytesI16 2 [1, 2] = some [1, 0, 2, 0]) ∧
    ([1, 0, 2, 0] : List Nat).length = 2 * ([1, 2] : List Int).length := by
  have hcap : captureBytesI16 2 [1, 2] = some [1, 0, 2, 0] := by
    simp [captureBytesI16, captureBytesI16.go, chunksOf, writeFrameI16,
      writeSampleI16, to_u16_of_i16, u16le]
  exact ⟨⟨by decide, hcap⟩, c1_bytes_per_sample 2 [1, 2] [1, 0, 2, 0] (by decide) hcap⟩

/-- C2, counterexample: starting with a native 2-channel 32-bit float
configuration, the header's NumChannels bytes (offset 22) read 2, its
BitsPerSample bytes (offset 34) read 32, and its AudioFormat bytes
(offset 20) read 3 — not the claimed constant 1 / 16 / 1. -/
theorem c2_counterexample :
    readBytes (write_wav_header ⟨2, 48000⟩ .F32) 22 2 = [2, 0] ∧
    readBytes (write_wav_header ⟨2, 48000⟩ .F32) 34 2 = [32, 0] ∧
    readBytes (write_wav_header ⟨2, 48000⟩ .F32) 20 2 = [3, 0] ∧
    ([2, 0] : List Nat) ≠ [1, 0] ∧ ([32, 0] : List Nat) ≠ [16, 0] := by
  decide

/-- C2, amended: the 44-byte header carries the *native* stream parameters:
NumChannels is the device channel count, BitsPerSample the native sample
width (8/16/32/64 by kind), AudioFormat 3 for float kinds and 1 otherwise,
ByteRate = SampleRate·channels·(bits/8) and BlockAlign = channels·(bits/8)
(with the source's u16/u32 truncations). -/
theorem c2_header_fields (cfg : StreamConfig) (fmt : SampleFormat) :
    (write_wav_header cfg fmt).length = 44 ∧
    readBytes (write_wav_header cfg fmt) 20 2 = u16le (audioFormat fmt) ∧
    readBytes (write_wav_header cfg fmt) 22 2 = u16le (cfg.channels % 65536) ∧
    readBytes (write_wav_header cfg fmt) 24 4 = u32le (cfg.sampleRate % 4294967296) ∧
    readBytes (write_wav_header cfg fmt) 28 4 =
      u32le ((cfg.sampleRate % 4294967296) * (cfg.channels % 65536)
        * (bitsPerSample fmt / 8) % 4294967296) ∧
    readBytes (write_wav_header cfg fmt) 32 2 =
      u16le ((cfg.channels % 65536) * (bitsPerSample fmt / 8) % 65536) ∧
    readBytes (write_wav_header cfg fmt) 34 2 = u16le (bitsPerSample fmt) :=
  ⟨rfl, rfl, rfl, rfl, rfl, rfl, rfl⟩

/-- C3: the claim is right about the intended patch, but the code writes
`file_length - 8` as a `u64`, eight bytes at offsets 4..11 instead of four
at 4..7: on the 48-byte scenario file the four bytes at offsets 8..11,
which held "WAVE", are overwritten with zeros. -/
theorem c3_riff_size_written_as_u64 :
    readBytes demoFile 8 4 = [87, 65, 86, 69] ∧
    readBytes (update_wav_header demoFile) 4 8 = [40, 0, 0, 0, 0, 0, 0, 0] ∧
    readBytes (update_wav_header demoFile) 8 4 = [0, 0, 0, 0] := by
  decide

/-- C4: the per-sample conversion for a 16-bit signed stream is *not* total:
`to_u16` on the negative sample −1 is `None`, so the callback's `unwrap`
panics, while any non-negative sample succeeds. -/
theorem c4_negative_i16_sample_panics :
    writeSampleI16 (-1) = none ∧ writeSampleI16 1 = some [1, 0] := by
  decide

/-- C5, counterexample: a native unsigned 16-bit stream does not fail at
setup — the `match` in `start` dispatches `U16` to `capture::<u16>` and a
stream is built. -/
theorem c5_counterexample :
    startDispatch .U16 = .capture 2 ∧
    StartAction.capture 2 ≠ .unsupportedPanic := by
  decide

/-- C5, amended: every one of the ten cpal sample kinds named in the source
is dispatched to `capture::<T>` with the kind's byte width; none of them
reaches the `panic!("Unsupported sample format")` arm (that arm is live only
for `cpal` constructors outside these ten). -/
theorem c5_every_kind_builds_stream (fmt : SampleFormat) :
    startDispatch fmt = .capture (bitsPerSample fmt / 8) ∧
    startDispatch fmt ≠ .unsupportedPanic := by
  cases fmt <;> exact ⟨rfl, by decide⟩

/-- C6: after `update_wav_header` the header is *not* byte-identical outside
the two size fields: "RIFF" and "fmt " survive, but the "WAVE" tag at
offsets 8..11 is zeroed by the eight-byte RIFF-size write. -/
theorem c6_wave_tag_clobbered :
    readBytes demoFile 0 4 = [82, 73, 70, 70] ∧
    readBytes demoFile 8 4 = [87, 65, 86, 69] ∧
    readBytes demoFile 12 4 = [102, 109, 116, 32] ∧
    readBytes (update_wav_header demoFile) 0 4 = [82, 73, 70, 70] ∧
    readBytes (update_wav_header demoFile) 12 4 = [102, 109, 116, 32] ∧
    readBytes (update_wav_header demoFile) 8 4 ≠ [87, 65, 86, 69] := by
  decide

/-- C7, counterexample: a stereo 16-bit frame with both channels 16384
(+0.5) is not averaged into one 16-bit sample: the callback writes both
samples unchanged, 4 bytes, not a single 2-byte PCM value. -/
theorem c7_counterexample :
    captureBytesI16 2 [16384, 16384] = some [0, 64, 0, 64] ∧
    ([0, 64, 0, 64] : List Nat).length ≠ 2 := by
  refine ⟨?_, by decide⟩
  simp [captureBytesI16, captureBytesI16.go, chunksOf, writeFrameI16,
    writeSampleI16, to_u16_of_i16, u16le]

/-- C7, amended: no normalization, averaging, scaling or clamping happens
for stereo input; each of the two channel samples of a frame is written
separately as its own 2-byte little-endian value (for non-negative samples,
where the conversion does not panic). -/
theorem c7_stereo_no_downmix (a b : Int) (ha0 : 0 ≤ a) (ha1 : a < 32768)
    (hb0 : 0 ≤ b) (hb1 : b < 32768) :
    captureBytesI16 2 [a, b] = some (u16le a.toNat ++ u16le b.toNat) := by
  simp [captureBytesI16, captureBytesI16.go, chunksOf, writeFrameI16,
    writeSampleI16, to_u16_of_i16, ha0, hb0]

/-- Witness for `c7_stereo_no_downmix` at the frame `[3, 5]`. -/
theorem c7_stereo_no_downmix_witness :
    (0 ≤ (3 : Int) ∧ (3 : Int) < 32768 ∧ 0 ≤ (5 : Int) ∧ (5 : Int) < 32768) ∧
    captureBytesI16 2 [3, 5] = some (u16le (Int.toNat 3) ++ u16le (Int.toNat 5)) :=
  ⟨by decide, c7_stereo_no_downmix 3 5 (by decide) (by decide) (by decide) (by decide)⟩

/-- C8: `begin` (any native config) → `append` × k → `finalize` yields a
file of exactly 44 + Σ bytes whose four bytes at offset 40 decode
(little-endian u32) to Σ and whose four bytes at offset 4 decode to Σ + 36,
for every append sequence whose total Σ fits the u32 size fields (which the
claim's u32 decode wording presupposes). -/
theorem c8_roundtrip_sizes (cfg : StreamConfig) (fmt : SampleFormat)
    (chunks : List (List Nat))
    (h : (chunks.map List.length).sum + 44 < 4294967296) :
    (update_wav_header (write_wav_header cfg fmt ++ chunks.flatten)).length
        = 44 + (chunks.map List.length).sum ∧
    readBytes (update_wav_header (write_wav_header cfg fmt ++ chunks.flatten)) 40 4
        = u32le ((chunks.map List.length).sum) ∧
    readBytes (update_wav_header (write_wav_header cfg fmt ++ chunks.flatten)) 4 4
        = u32le ((chunks.map List.length).sum + 36) ∧
    u32leDecode (readBytes (update_wav_header (write_wav_header cfg fmt ++ chunks.flatten)) 40 4)
        = (chunks.map List.length).sum ∧
    u32leDecode (readBytes (update_wav_header (write_wav_header cfg fmt ++ chunks.flatten)) 4 4)
        = (chunks.map List.length).sum + 36 := by
  set n := (chunks.map List.length).sum with hn
  set F := write_wav_header cfg fmt ++ chunks.flatten with hF
  have hFlen : F.length = 44 + n := by
    rw [hF, List.length_append, write_wav_header_length, List.length_flatten]
  have hs : (F.length - 8) % 18446744073709551616 = n + 36 := by
    rw [hFlen]; omega
  have hd : (F.length - 44) % 4294967296 = n := by
    rw [hFlen]; omega
  have e : update_wav_header F
      = writeAt (writeAt F 4 (u64le ((F.length - 8) % 18446744073709551616)))
          40 (u32le ((F.length - 44) % 4294967296)) := rfl
  rw [hs, hd] at e
  have hW1len : (writeAt F 4 (u64le (n + 36))).length = 44 + n := by
    rw [length_writeAt _ _ _ (by rw [hFlen]; simp only [u64le, List.length_cons, List.length_nil]; omega), hFlen]
  have hlen : (update_wav_header F).length = 44 + n := by
    rw [e, length_writeAt _ _ _ (by rw [hW1len]; simp only [u32le, List.length_cons, List.length_nil]; omega), hW1len]
  have h40 : readBytes (update_wav_header F) 40 4 = u32le n := by
    rw [e, readBytes_writeAt_self _ _ _ _ (by rw [hW1len]; omega) (by simp [u32le])]
    rfl
  have h4 : readBytes (update_wav_header F) 4 4 = u32le (n + 36) := by
    rw [e, readBytes_writeAt_left _ _ _ _ _ (by omega) (by rw [hW1len]; omega),
      readBytes_writeAt_self _ _ _ _ (by rw [hFlen]; omega) (by simp [u64le])]
    rfl
  refine ⟨hlen, h40, h4, ?_, ?_⟩
  · rw [h40, u32leDecode_u32le]; omega
  · rw [h4, u32leDecode_u32le]; omega

/-- Witness for `c8_roundtrip_sizes` at the spec's concrete scenario:
`begin` at 16 kHz mono 16-bit, one `append` of `00 01 00 02`, `finalize`:
a 48-byte file with bytes 40..43 = `04 00 00 00` and bytes 4..7 =
`28 00 00 00`. -/
theorem c8_roundtrip_sizes_witness :
    ((([[0, 1, 0, 2]] : List (List Nat)).map List.length).sum + 44 < 4294967296) ∧
    ((update_wav_header (write_wav_header ⟨1, 16000⟩ .I16 ++ ([[0, 1, 0, 2]] : List (List Nat)).flatten)).length
        = 44 + (([[0, 1, 0, 2]] : List (List Nat)).map List.length).sum ∧
    readBytes (update_wav_header (write_wav_header ⟨1, 16000⟩ .I16 ++ ([[0, 1, 0, 2]] : List (List Nat)).flatten)) 40 4
        = u32le ((([[0, 1, 0, 2]] : List (List Nat)).map List.length).sum) ∧
    readBytes (update_wav_header (write_wav_header ⟨1, 16000⟩ .I16 ++ ([[0, 1, 0, 2]] : List (List Nat)).flatten)) 4 4
        = u32le ((([[0, 1, 0, 2]] : List (List Nat)).map List.length).sum + 36) ∧
    u32leDecode (readBytes (update_wav_header (write_wav_header ⟨1, 16000⟩ .I16 ++ ([[0, 1, 0, 2]] : List (List Nat)).flatten)) 40 4)
        = (([[0, 1, 0, 2]] : List (List Nat)).map List.length).sum ∧
    u32leDecode (readBytes (update_wav_header (write_wav_header ⟨1, 16000⟩ .I16 ++ ([[0, 1, 0, 2]] : List (List Nat)).flatten)) 4 4)
        = (([[0, 1, 0, 2]] : List (List Nat)).map List.length).sum + 36) ∧
    ((update_wav_header demoFile).length = 48 ∧
     readBytes (update_wav_header demoFile) 40 4 = [4, 0, 0, 0] ∧
     readBytes (update_wav_header demoFile) 4 4 = [40, 0, 0, 0]) :=
  ⟨by decide, c8_roundtrip_sizes ⟨1, 16000⟩ .I16 [[0, 1, 0, 2]] (by decide), by decide⟩

/-- C9: for a 64-bit float stream the integer branch *is* reachable: the
sample value 0.5 satisfies the `to_u64` range test, so `to_u64` returns
`Some(0)` and the callback writes the eight bytes of the integer 0 —
regardless of the (unreached) float encoding — instead of the IEEE-754
little-endian bytes of 0.5 (`00 00 00 00 00 00 E0 3F`). -/
theorem c9_float_sample_takes_integer_branch (enc : ℚ → List Nat) :
    to_u64_of_f64 (1 / 2) = some 0 ∧
    writeSampleF64 enc (1 / 2) = [0, 0, 0, 0, 0, 0, 0, 0] := by
  have h : to_u64_of_f64 (1 / 2) = some 0 := by
    unfold to_u64_of_f64
    rw [if_pos (by norm_num)]
    norm_num
  refine ⟨h, ?_⟩
  unfold writeSampleF64
  rw [h]
  rfl

/-- C10: calling `stop` on a session that was never started is a no-op:
both `if let` guards see `None`, no file bytes are touched, and the session
state is unchanged. -/
theorem c10_stop_without_start_is_noop (name : String) :
    AudioCapture.stop (AudioCapture.new name) = AudioCapture.new name :=
  rfl

end AudioTransVox
